import Mathlib

/-!
Verification of the `get_target_outputs` evaluation-time query of the gn
meta-build tool, as implemented in `src/gn/function_get_target_outputs.cc`
(`functions::RunGetTargetOutputs`).

The embedding follows the C++ source: `Value` is the description-language
value type, `Err` the diagnostic error value, `Item` the tagged union of
declared entities, `Scope` the evaluation context holding the item
collector.  Collaborators living outside the given source file
(`Label::Resolve`, `ActionValues::GetOutputsAsSourceFiles`, the
substitution pattern engine, `Label::GetUserVisibleName`) are modelled
from the specification, as marked on each definition.
-/

namespace GN

/-- A canonical identifier for a declared entity: originating directory,
short name, toolchain qualifier.  Equality on all three fields is the only
relation the registry uses. -/
structure Label where
  dir : String
  name : String
  toolchain : String
deriving DecidableEq, Repr

/-- Modelled from the spec: `Label::GetUserVisibleName` is missing from
src/.  The user-visible form of a label is its directory and short name
joined by a colon, with the toolchain qualifier appended only when
requested. -/
def Label.GetUserVisibleName (l : Label) (includeToolchain : Bool) : String :=
  if includeToolchain then
    l.dir ++ ":" ++ l.name ++ "(" ++ l.toolchain ++ ")"
  else
    l.dir ++ ":" ++ l.name

/-- A source or output file path in canonical absolute form, as the C++
`SourceFile` stores it; `value` is its canonical string form. -/
structure SourceFile where
  value : String
deriving DecidableEq, Repr

/-- Modelled from the spec: the placeholder vocabulary of the Substitution
Pattern Engine (missing from src/) — a pattern is a sequence of parts,
each either a literal or a recognized component of the source path or of
the output-directory context. -/
inductive PatternPart where
  | literal (s : String)
  | sourceName
  | sourceStem
  | sourceExtension
  | sourceDirPart
  | outputDir
deriving DecidableEq, Repr

/-- A compiled output template: a sequence of pattern parts. -/
abbrev SubstitutionPattern := List PatternPart

/-- Split a character list at every occurrence of the separator; the
result always has at least one (possibly empty) piece. -/
def splitOnChar (c : Char) : List Char → List (List Char)
  | [] => [[]]
  | x :: xs =>
    match splitOnChar c xs with
    | [] => if x = c then [[], []] else [[x]]
    | h :: t => if x = c then [] :: h :: t else (x :: h) :: t

/-- Join character-list pieces with the separator between them. -/
def joinWithChar (c : Char) : List (List Char) → List Char
  | [] => []
  | [x] => x
  | x :: xs => x ++ c :: joinWithChar c xs

/-- The file-name component of a path (everything after the last slash). -/
def fileNameOf (p : String) : String :=
  ⟨(splitOnChar '/' p.data).getLastD p.data⟩

/-- The stem of a path: its file name with the final dotted extension
removed (a name without a dot is its own stem). -/
def fileStemOf (p : String) : String :=
  let n := (fileNameOf p).data
  match splitOnChar '.' n with
  | [] => ⟨n⟩
  | [single] => ⟨single⟩
  | more => ⟨joinWithChar '.' more.dropLast⟩

/-- The extension of a path: the part of its file name after the last dot,
empty when there is none. -/
def fileExtensionOf (p : String) : String :=
  let n := (fileNameOf p).data
  match splitOnChar '.' n with
  | [] => ""
  | [_] => ""
  | more => ⟨more.getLastD []⟩

/-- The directory component of a path (everything up to the last slash). -/
def fileDirOf (p : String) : String :=
  match splitOnChar '/' p.data with
  | [] => ""
  | [_] => ""
  | more => ⟨joinWithChar '/' more.dropLast⟩

/-- Modelled from the spec: expansion of one pattern part against one
source path and the output-directory context (§4.4); a pure function of
its arguments. -/
def expandPart (outDir : String) (source : SourceFile) : PatternPart → String
  | .literal s => s
  | .sourceName => fileNameOf source.value
  | .sourceStem => fileStemOf source.value
  | .sourceExtension => fileExtensionOf source.value
  | .sourceDirPart => fileDirOf source.value
  | .outputDir => outDir

/-- Modelled from the spec: `expand` of the Substitution Pattern Engine
(missing from src/) — substitute the components of `source` into the
template and return the resulting path. -/
def expandPattern (outDir : String) (pat : SubstitutionPattern)
    (source : SourceFile) : SourceFile :=
  ⟨String.join (pat.map (expandPart outDir source))⟩

/-- The output kinds of a target, as in the C++ `Target::OutputType`. -/
inductive OutputType where
  | action
  | actionForeach
  | copyFiles
  | generatedFile
  | sourceSet
  | group
  | executable
  | sharedLibrary
  | staticLibrary
  | loadableModule
deriving DecidableEq, Repr

/-- A declared target: its label, output kind, explicit output-path list
(used by action/copy/generated_file), and source list plus output template
(used by action_foreach). -/
structure Target where
  label : Label
  output_type : OutputType
  outputs : List SourceFile
  sources : List SourceFile
  template : List SubstitutionPattern
deriving DecidableEq

/-- Modelled from the spec: `ActionValues::GetOutputsAsSourceFiles`
(missing from src/), §4.3.  For action/copy/generated_file kinds the
explicit output list is returned verbatim; for action_foreach each source,
in declaration order, is expanded against each template pattern in order
and the per-source results are concatenated. -/
def Target.GetOutputsAsSourceFiles (t : Target) (outDir : String) :
    List SourceFile :=
  if t.output_type = OutputType.actionForeach then
    (t.sources.map (fun s => t.template.map
      (fun pat => expandPattern outDir pat s))).flatten
  else
    t.outputs

/-- The tagged union of entities declared during file evaluation. -/
inductive Item where
  | target (t : Target)
  | config (label : Label)
  | toolchainDef (label : Label)
  | pool (label : Label)

/-- The label an item was declared under. -/
def Item.label : Item → Label
  | .target t => t.label
  | .config l => l
  | .toolchainDef l => l
  | .pool l => l

/-- The safe downcast `Item::AsTarget`. -/
def Item.AsTarget : Item → Option Target
  | .target t => some t
  | _ => none

/-- `Item::GetItemTypeName`: the human-readable kind name used in
diagnostics. -/
def Item.GetItemTypeName : Item → String
  | .target _ => "target"
  | .config _ => "config"
  | .toolchainDef _ => "toolchain"
  | .pool _ => "pool"

/-- The description-language value type; only the shapes this operation
produces or consumes are represented.  `none_` is the null `Value()`. -/
inductive Value where
  | none_
  | string (s : String)
  | list (elems : List Value)

/-- A structured diagnostic: message plus optional secondary help text
(the call-site location is carried by the evaluation context and is not
part of the comparison the claims make). -/
structure Err where
  message : String
  helpText : String
deriving DecidableEq, Repr

/-- The evaluation context as this operation reads it: the item collector
(the ordered registry of items declared so far in this file, `none` when
the operation runs outside any file-evaluation context) and the output
directory used as substitution context. -/
structure Scope where
  itemCollector : Option (List Item)
  outDir : String

/-- `Scope::GetItemCollector`. -/
def Scope.GetItemCollector (s : Scope) : Option (List Item) :=
  s.itemCollector

/-- The registry scan of `RunGetTargetOutputs` (the `for` loop over the
collector, lines 92–105): skip items with a different label; at the first
item with the requested label, fail if it is not a target, otherwise keep
it and stop.  Returns `.ok none` when no item matches. -/
def findTarget (label : Label) :
    List Item → Except Err (Option Target)
  | [] => Except.ok none
  | item :: rest =>
    if item.label ≠ label then
      findTarget label rest
    else
      match item.AsTarget with
      | none =>
        Except.error
          ⟨"Label does not refer to a target.",
            label.GetUserVisibleName false ++ "\nrefers to a " ++
              item.GetItemTypeName⟩
      | some t => Except.ok (some t)

/-- `functions::RunGetTargetOutputs`, translated step for step from
`src/gn/function_get_target_outputs.cc` lines 66–139.  `resolve` stands
for the external collaborator `Label::Resolve` applied to the scope's
source directory, root path and toolchain (it is not part of src/): it
either produces a resolved label or the syntax error it set.  The C++
convention of returning `Value()` and setting `*err` is modelled by
returning the pair of the produced value and the optional error. -/
def RunGetTargetOutputs (resolve : Value → Except Err Label)
    (scope : Scope) (args : List Value) : Value × Option Err :=
  match args with
  | [arg] =>
    match resolve arg with
    | Except.error e => (Value.none_, some e)
    | Except.ok label =>
      match scope.GetItemCollector with
      | none =>
        (Value.none_, some ⟨"No targets defined in this context.", ""⟩)
      | some collector =>
        match findTarget label collector with
        | Except.error e => (Value.none_, some e)
        | Except.ok none =>
          (Value.none_,
            some ⟨"Target not found in this context.",
              label.GetUserVisibleName false ++
                "\nwas not found. get_target_outputs() can only be used for targets\npreviously defined in the current file."⟩)
        | Except.ok (some target) =>
          if target.output_type = OutputType.action ∨
              target.output_type = OutputType.copyFiles ∨
              target.output_type = OutputType.actionForeach ∨
              target.output_type = OutputType.generatedFile then
            let files := target.GetOutputsAsSourceFiles scope.outDir
            (Value.list (files.map (fun f => Value.string f.value)), none)
          else
            (Value.none_,
              some ⟨"Target is not an action, action_foreach, generated_file, or copy.",
                "Only these target types are supported by get_target_outputs."⟩)
  | _ => (Value.none_, some ⟨"Expected one argument.", ""⟩)

/-! ## Registry-scan lemmas -/

/-- When no item of the registry carries the requested label, the scan
reports that nothing was found. -/
theorem findTarget_not_found (label : Label) (items : List Item)
    (h : ∀ i ∈ items, i.label ≠ label) :
    findTarget label items = Except.ok none := by
  induction items with
  | nil => rfl
  | cons item rest ih =>
    have hi : item.label ≠ label := h item (List.mem_cons_self item rest)
    unfold findTarget
    rw [if_pos hi]
    exact ih (fun i hm => h i (List.mem_cons_of_mem item hm))

/-- When the first item carrying the requested label is not a target, the
scan stops there with the type-mismatch diagnostic, whatever follows. -/
theorem findTarget_first_nontarget (label : Label) (pre : List Item)
    (item : Item) (rest : List Item)
    (hpre : ∀ i ∈ pre, i.label ≠ label)
    (hmatch : item.label = label)
    (hnt : item.AsTarget = none) :
    findTarget label (pre ++ item :: rest) =
      Except.error
        ⟨"Label does not refer to a target.",
          label.GetUserVisibleName false ++ "\nrefers to a " ++
            item.GetItemTypeName⟩ := by
  induction pre with
  | nil =>
    show findTarget label (item :: rest) = _
    unfold findTarget
    rw [if_neg (fun hn => hn hmatch), hnt]
  | cons p ps ih =>
    have hp : p.label ≠ label := hpre p (List.mem_cons_self p ps)
    show findTarget label (p :: (ps ++ item :: rest)) = _
    unfold findTarget
    rw [if_pos hp]
    exact ih (fun i hm => hpre i (List.mem_cons_of_mem p hm))

/-- When the first item carrying the requested label is a target, the scan
stops there and yields that target, whatever follows. -/
theorem findTarget_first_target (label : Label) (pre : List Item)
    (item : Item) (rest : List Item) (t : Target)
    (hpre : ∀ i ∈ pre, i.label ≠ label)
    (hmatch : item.label = label)
    (ht : item.AsTarget = some t) :
    findTarget label (pre ++ item :: rest) = Except.ok (some t) := by
  induction pre with
  | nil =>
    show findTarget label (item :: rest) = _
    unfold findTarget
    rw [if_neg (fun hn => hn hmatch), ht]
  | cons p ps ih =>
    have hp : p.label ≠ label := hpre p (List.mem_cons_self p ps)
    show findTarget label (p :: (ps ++ item :: rest)) = _
    unfold findTarget
    rw [if_pos hp]
    exact ih (fun i hm => hpre i (List.mem_cons_of_mem p hm))

/-- The success path of `RunGetTargetOutputs`: when the label resolves,
the collector is present, the scan yields a target and its kind is one of
the four supported ones, the returned value is the list of the computed
output files in their canonical string form, with the error left unset. -/
theorem run_success (resolve : Value → Except Err Label) (scope : Scope)
    (arg : Value) (label : Label) (collector : List Item) (t : Target)
    (hres : resolve arg = Except.ok label)
    (hcol : scope.GetItemCollector = some collector)
    (hfind : findTarget label collector = Except.ok (some t))
    (hsup : t.output_type = OutputType.action ∨
      t.output_type = OutputType.copyFiles ∨
      t.output_type = OutputType.actionForeach ∨
      t.output_type = OutputType.generatedFile) :
    RunGetTargetOutputs resolve scope [arg] =
      (Value.list ((t.GetOutputsAsSourceFiles scope.outDir).map
        (fun f => Value.string f.value)), none) := by
  simp only [RunGetTargetOutputs, hres, hcol, hfind]
  rw [if_pos hsup]

/-! ## Fixtures used by the witnesses -/

/-- A resolved label for a target declared in the current file. -/
def labelMyAction : Label := ⟨"//foo", "my_action", "//tc:default"⟩

/-- A concrete stand-in for `Label::Resolve` closed over a fixed scope
context: the expression `":my_action"` resolves, anything else is a label
syntax error. -/
def resolveFix : Value → Except Err Label
  | Value.string ":my_action" => Except.ok labelMyAction
  | _ => Except.error ⟨"Invalid label.", "The label is not valid."⟩

/-- An action target with a duplicated explicit output. -/
def targetDup : Target :=
  ⟨labelMyAction, OutputType.action,
    [⟨"/out/x.txt"⟩, ⟨"/out/x.txt"⟩], [], []⟩

/-- An action_foreach target with sources `a.c`, `b.c` and the template
`{out_dir}/{stem}.o`. -/
def targetForeach : Target :=
  ⟨labelMyAction, OutputType.actionForeach, [],
    [⟨"a.c"⟩, ⟨"b.c"⟩],
    [[PatternPart.outputDir, PatternPart.literal "/",
      PatternPart.sourceStem, PatternPart.literal ".o"]]⟩

/-- A source_set target under the same label. -/
def targetSourceSet : Target :=
  ⟨labelMyAction, OutputType.sourceSet, [], [], []⟩

/-! ## The claims -/

/-- C1: for a target of output kind Action, Copy, or GeneratedFile found
in the registry, `get_target_outputs` returns exactly the target's
explicit output-path list, each element converted to its canonical string
form, preserving declared order and multiplicity. -/
theorem getTargetOutputs_explicit_outputs_verbatim
    (resolve : Value → Except Err Label) (scope : Scope) (arg : Value)
    (label : Label) (collector : List Item) (t : Target)
    (hres : resolve arg = Except.ok label)
    (hcol : scope.GetItemCollector = some collector)
    (hfind : findTarget label collector = Except.ok (some t))
    (hkind : t.output_type = OutputType.action ∨
      t.output_type = OutputType.copyFiles ∨
      t.output_type = OutputType.generatedFile) :
    RunGetTargetOutputs resolve scope [arg] =
      (Value.list (t.outputs.map (fun f => Value.string f.value)), none) := by
  have hsup : t.output_type = OutputType.action ∨
      t.output_type = OutputType.copyFiles ∨
      t.output_type = OutputType.actionForeach ∨
      t.output_type = OutputType.generatedFile := by
    rcases hkind with h | h | h
    · exact Or.inl h
    · exact Or.inr (Or.inl h)
    · exact Or.inr (Or.inr (Or.inr h))
  have hne : t.output_type ≠ OutputType.actionForeach := by
    rcases hkind with h | h | h <;> simp [h]
  rw [run_success resolve scope arg label collector t hres hcol hfind hsup]
  unfold Target.GetOutputsAsSourceFiles
  rw [if_neg hne]

/-- C1 witness: with explicit outputs `["/out/x.txt", "/out/x.txt"]` the
returned list holds both duplicates in order. -/
theorem getTargetOutputs_explicit_outputs_verbatim_witness :
    RunGetTargetOutputs resolveFix ⟨some [Item.target targetDup], "/out"⟩
        [Value.string ":my_action"] =
      (Value.list [Value.string "/out/x.txt", Value.string "/out/x.txt"],
        none) := by
  rw [getTargetOutputs_explicit_outputs_verbatim resolveFix
    ⟨some [Item.target targetDup], "/out"⟩ (Value.string ":my_action")
    labelMyAction [Item.target targetDup] targetDup rfl rfl rfl
    (Or.inl rfl)]
  rfl

/-- C2: for an ActionForEach target found in the registry,
`get_target_outputs` returns the concatenation over the source list, in
declaration order, of expanding each template pattern against each source,
preserving source order and within-source expansion order. -/
theorem getTargetOutputs_actionForeach_expansion
    (resolve : Value → Except Err Label) (scope : Scope) (arg : Value)
    (label : Label) (collector : List Item) (t : Target)
    (hres : resolve arg = Except.ok label)
    (hcol : scope.GetItemCollector = some collector)
    (hfind : findTarget label collector = Except.ok (some t))
    (hkind : t.output_type = OutputType.actionForeach) :
    RunGetTargetOutputs resolve scope [arg] =
      (Value.list (((t.sources.map (fun s => t.template.map
          (fun pat => expandPattern scope.outDir pat s))).flatten).map
        (fun f => Value.string f.value)), none) := by
  rw [run_success resolve scope arg label collector t hres hcol hfind
    (Or.inr (Or.inr (Or.inl hkind)))]
  unfold Target.GetOutputsAsSourceFiles
  rw [if_pos hkind]

/-- C2 witness: sources `["a.c", "b.c"]` with template
`{out_dir}/{stem}.o` and output directory `/out` yield
`["/out/a.o", "/out/b.o"]` in that order. -/
theorem getTargetOutputs_actionForeach_expansion_witness :
    RunGetTargetOutputs resolveFix ⟨some [Item.target targetForeach], "/out"⟩
        [Value.string ":my_action"] =
      (Value.list [Value.string "/out/a.o", Value.string "/out/b.o"],
        none) := by
  rw [getTargetOutputs_actionForeach_expansion resolveFix
    ⟨some [Item.target targetForeach], "/out"⟩ (Value.string ":my_action")
    labelMyAction [Item.target targetForeach] targetForeach rfl rfl rfl rfl]
  rfl

/-- C3: for a found target whose output kind is not one of Action,
ActionForEach, Copy, or GeneratedFile, `get_target_outputs` fails with the
unsupported-kind diagnostic and produces no output list. -/
theorem getTargetOutputs_unsupported_kind_error
    (resolve : Value → Except Err Label) (scope : Scope) (arg : Value)
    (label : Label) (collector : List Item) (t : Target)
    (hres : resolve arg = Except.ok label)
    (hcol : scope.GetItemCollector = some collector)
    (hfind : findTarget label collector = Except.ok (some t))
    (hkind : ¬(t.output_type = OutputType.action ∨
      t.output_type = OutputType.copyFiles ∨
      t.output_type = OutputType.actionForeach ∨
      t.output_type = OutputType.generatedFile)) :
    RunGetTargetOutputs resolve scope [arg] =
      (Value.none_,
        some ⟨"Target is not an action, action_foreach, generated_file, or copy.",
          "Only these target types are supported by get_target_outputs."⟩) := by
  simp only [RunGetTargetOutputs, hres, hcol, hfind]
  rw [if_neg hkind]

/-- C3 witness: a source_set target is rejected with the unsupported-kind
diagnostic. -/
theorem getTargetOutputs_unsupported_kind_error_witness :
    RunGetTargetOutputs resolveFix
        ⟨some [Item.target targetSourceSet], "/out"⟩
        [Value.string ":my_action"] =
      (Value.none_,
        some ⟨"Target is not an action, action_foreach, generated_file, or copy.",
          "Only these target types are supported by get_target_outputs."⟩) := by
  rw [getTargetOutputs_unsupported_kind_error resolveFix
    ⟨some [Item.target targetSourceSet], "/out"⟩ (Value.string ":my_action")
    labelMyAction [Item.target targetSourceSet] targetSourceSet rfl rfl rfl
    (by decide)]

/-- A stand-in resolver that rejects every expression. -/
def resolveNever : Value → Except Err Label :=
  fun _ => Except.error ⟨"Invalid label.", "The label is not valid."⟩

/-- C4: a resolved label matching no item of the present registry fails
with the not-found diagnostic, whose help text states that only targets
previously defined in the current file are usable; the context error, by
contrast, is produced exactly when the registry is absent, and the two
errors are distinct. -/
theorem getTargetOutputs_not_found_error
    (resolve : Value → Except Err Label) (scope : Scope) (arg : Value)
    (label : Label) (collector : List Item)
    (hres : resolve arg = Except.ok label)
    (hcol : scope.GetItemCollector = some collector)
    (habsent : ∀ i ∈ collector, i.label ≠ label) :
    RunGetTargetOutputs resolve scope [arg] =
      (Value.none_,
        some ⟨"Target not found in this context.",
          label.GetUserVisibleName false ++
            "\nwas not found. get_target_outputs() can only be used for targets\npreviously defined in the current file."⟩) ∧
    RunGetTargetOutputs resolve ⟨none, scope.outDir⟩ [arg] =
      (Value.none_, some ⟨"No targets defined in this context.", ""⟩) ∧
    (RunGetTargetOutputs resolve scope [arg]).2 ≠
      (RunGetTargetOutputs resolve ⟨none, scope.outDir⟩ [arg]).2 := by
  have h1 : RunGetTargetOutputs resolve scope [arg] =
      (Value.none_,
        some ⟨"Target not found in this context.",
          label.GetUserVisibleName false ++
            "\nwas not found. get_target_outputs() can only be used for targets\npreviously defined in the current file."⟩) := by
    simp only [RunGetTargetOutputs, hres, hcol,
      findTarget_not_found label collector habsent]
  have h2 : RunGetTargetOutputs resolve ⟨none, scope.outDir⟩ [arg] =
      (Value.none_, some ⟨"No targets defined in this context.", ""⟩) := by
    simp only [RunGetTargetOutputs, hres, Scope.GetItemCollector]
  refine ⟨h1, h2, ?_⟩
  rw [h1, h2]
  simp

/-- C4 witness: against an existing but empty registry, the query for
`:my_action` fails with the not-found diagnostic, while the same query
without any registry fails with the context diagnostic, and the two errors
differ. -/
theorem getTargetOutputs_not_found_error_witness :
    RunGetTargetOutputs resolveFix ⟨some [], "/out"⟩
        [Value.string ":my_action"] =
      (Value.none_,
        some ⟨"Target not found in this context.",
          labelMyAction.GetUserVisibleName false ++
            "\nwas not found. get_target_outputs() can only be used for targets\npreviously defined in the current file."⟩) ∧
    RunGetTargetOutputs resolveFix ⟨none, "/out"⟩
        [Value.string ":my_action"] =
      (Value.none_, some ⟨"No targets defined in this context.", ""⟩) ∧
    (RunGetTargetOutputs resolveFix ⟨some [], "/out"⟩
        [Value.string ":my_action"]).2 ≠
      (RunGetTargetOutputs resolveFix ⟨none, "/out"⟩
        [Value.string ":my_action"]).2 :=
  getTargetOutputs_not_found_error resolveFix ⟨some [], "/out"⟩
    (Value.string ":my_action") labelMyAction [] rfl rfl
    (fun i hm => absurd hm (List.not_mem_nil i))

/-- C5: when the first item of the registry carrying the resolved label is
not a target, the query fails with the type-mismatch diagnostic carrying
the label's user-visible form and the item's reported kind name. -/
theorem getTargetOutputs_type_mismatch_error
    (resolve : Value → Except Err Label) (scope : Scope) (arg : Value)
    (label : Label) (pre : List Item) (item : Item) (rest : List Item)
    (hres : resolve arg = Except.ok label)
    (hcol : scope.GetItemCollector = some (pre ++ item :: rest))
    (hpre : ∀ i ∈ pre, i.label ≠ label)
    (hmatch : item.label = label)
    (hnt : item.AsTarget = none) :
    RunGetTargetOutputs resolve scope [arg] =
      (Value.none_,
        some ⟨"Label does not refer to a target.",
          label.GetUserVisibleName false ++ "\nrefers to a " ++
            item.GetItemTypeName⟩) := by
  simp only [RunGetTargetOutputs, hres, hcol,
    findTarget_first_nontarget label pre item rest hpre hmatch hnt]

/-- C5 witness: a config declared under the queried label is rejected with
the type-mismatch diagnostic naming the label and the kind `config`. -/
theorem getTargetOutputs_type_mismatch_error_witness :
    RunGetTargetOutputs resolveFix
        ⟨some [Item.config labelMyAction], "/out"⟩
        [Value.string ":my_action"] =
      (Value.none_,
        some ⟨"Label does not refer to a target.",
          "//foo:my_action\nrefers to a config"⟩) := by
  rw [getTargetOutputs_type_mismatch_error resolveFix
    ⟨some [Item.config labelMyAction], "/out"⟩ (Value.string ":my_action")
    labelMyAction [] (Item.config labelMyAction) [] rfl rfl
    (fun i hm => absurd hm (List.not_mem_nil i)) rfl rfl]
  rfl

/-- C6: with an argument count other than one, the query fails with the
argument-count diagnostic, and the result does not depend on the resolver
or on the evaluation context: no label parsing, registry access or lookup
takes place. -/
theorem getTargetOutputs_argument_count_first
    (resolve resolve2 : Value → Except Err Label) (scope scope2 : Scope)
    (args : List Value) (h : args.length ≠ 1) :
    RunGetTargetOutputs resolve scope args =
      (Value.none_, some ⟨"Expected one argument.", ""⟩) ∧
    RunGetTargetOutputs resolve scope args =
      RunGetTargetOutputs resolve2 scope2 args := by
  match args with
  | [] => exact ⟨rfl, rfl⟩
  | [a] => exact absurd rfl h
  | a :: b :: t => exact ⟨rfl, rfl⟩

/-- C6 witness: a zero-argument call fails with the argument-count
diagnostic, identically under two unrelated resolvers and contexts. -/
theorem getTargetOutputs_argument_count_first_witness :
    RunGetTargetOutputs resolveFix ⟨some [Item.target targetDup], "/out"⟩
        [] =
      (Value.none_, some ⟨"Expected one argument.", ""⟩) ∧
    RunGetTargetOutputs resolveFix ⟨some [Item.target targetDup], "/out"⟩
        [] =
      RunGetTargetOutputs resolveNever ⟨none, ""⟩ [] :=
  getTargetOutputs_argument_count_first resolveFix resolveNever
    ⟨some [Item.target targetDup], "/out"⟩ ⟨none, ""⟩ [] (by decide)

/-- C7: the error checks short-circuit in order: a label-resolution error
is propagated unchanged whatever the evaluation context holds (the
registry is never consulted), and the context diagnostic arises exactly
when resolution has succeeded and no registry is present, before any
lookup. -/
theorem getTargetOutputs_error_order
    (resolve : Value → Except Err Label) (arg : Value) (e : Err) :
    (∀ scope : Scope, resolve arg = Except.error e →
      RunGetTargetOutputs resolve scope [arg] = (Value.none_, some e)) ∧
    (∀ (outDir : String) (label : Label), resolve arg = Except.ok label →
      RunGetTargetOutputs resolve ⟨none, outDir⟩ [arg] =
        (Value.none_, some ⟨"No targets defined in this context.", ""⟩)) := by
  constructor
  · intro scope hres
    simp only [RunGetTargetOutputs, hres]
  · intro outDir label hres
    simp only [RunGetTargetOutputs, hres, Scope.GetItemCollector]

/-- C7 witness: a malformed expression is rejected with the resolver's own
error even against a populated registry, and a well-formed expression
without any registry yields the context diagnostic. -/
theorem getTargetOutputs_error_order_witness :
    RunGetTargetOutputs resolveFix ⟨some [Item.target targetDup], "/out"⟩
        [Value.string "bogus"] =
      (Value.none_, some ⟨"Invalid label.", "The label is not valid."⟩) ∧
    RunGetTargetOutputs resolveFix ⟨none, "/out"⟩
        [Value.string ":my_action"] =
      (Value.none_, some ⟨"No targets defined in this context.", ""⟩) :=
  ⟨(getTargetOutputs_error_order resolveFix (Value.string "bogus")
      ⟨"Invalid label.", "The label is not valid."⟩).1
      ⟨some [Item.target targetDup], "/out"⟩ rfl,
    (getTargetOutputs_error_order resolveFix (Value.string ":my_action")
      ⟨"Invalid label.", "The label is not valid."⟩).2 "/out" labelMyAction
      rfl⟩

/-- C8: the operation is a pure, deterministic read: it is a function of
the resolver, the evaluation context and the argument list alone, so two
calls with identical arguments against an unchanged context produce
identical results, and no input is modified (the embedding returns only
the produced value and optional error). -/
theorem getTargetOutputs_pure_deterministic
    (resolve resolve2 : Value → Except Err Label) (scope scope2 : Scope)
    (args args2 : List Value)
    (hr : resolve = resolve2) (hs : scope = scope2) (ha : args = args2) :
    RunGetTargetOutputs resolve scope args =
      RunGetTargetOutputs resolve2 scope2 args2 := by
  rw [hr, hs, ha]

/-- C8 witness: two identical calls against the same registry coincide. -/
theorem getTargetOutputs_pure_deterministic_witness :
    RunGetTargetOutputs resolveFix ⟨some [Item.target targetDup], "/out"⟩
        [Value.string ":my_action"] =
      RunGetTargetOutputs resolveFix ⟨some [Item.target targetDup], "/out"⟩
        [Value.string ":my_action"] :=
  getTargetOutputs_pure_deterministic resolveFix resolveFix
    ⟨some [Item.target targetDup], "/out"⟩
    ⟨some [Item.target targetDup], "/out"⟩
    [Value.string ":my_action"] [Value.string ":my_action"] rfl rfl rfl

/-- C9: the registry scan stops at the first item carrying the resolved
label: when that item is not a target, the query fails with the
type-mismatch diagnostic even though a later item of the registry is a
target declared under the very same label. -/
theorem getTargetOutputs_first_match_dominates
    (resolve : Value → Except Err Label) (outDir : String) (arg : Value)
    (label : Label) (pre : List Item) (item : Item) (rest : List Item)
    (tgt : Target)
    (hres : resolve arg = Except.ok label)
    (hpre : ∀ i ∈ pre, i.label ≠ label)
    (hmatch : item.label = label)
    (hnt : item.AsTarget = none)
    (_htgt : tgt.label = label) :
    RunGetTargetOutputs resolve
        ⟨some (pre ++ item :: (rest ++ [Item.target tgt])), outDir⟩ [arg] =
      (Value.none_,
        some ⟨"Label does not refer to a target.",
          label.GetUserVisibleName false ++ "\nrefers to a " ++
            item.GetItemTypeName⟩) := by
  simp only [RunGetTargetOutputs, hres, Scope.GetItemCollector,
    findTarget_first_nontarget label pre item (rest ++ [Item.target tgt])
      hpre hmatch hnt]

/-- C9 witness: a config under the queried label followed by an action
target under the same label still yields the type-mismatch diagnostic. -/
theorem getTargetOutputs_first_match_dominates_witness :
    RunGetTargetOutputs resolveFix
        ⟨some [Item.config labelMyAction, Item.target targetDup], "/out"⟩
        [Value.string ":my_action"] =
      (Value.none_,
        some ⟨"Label does not refer to a target.",
          "//foo:my_action\nrefers to a config"⟩) :=
  getTargetOutputs_first_match_dominates resolveFix "/out"
    (Value.string ":my_action") labelMyAction []
    (Item.config labelMyAction) [] targetDup rfl
    (fun i hm => absurd hm (List.not_mem_nil i)) rfl rfl rfl

/-- C10: every call either succeeds returning a list value with the error
unset, or fails setting an error and returning the null value; no other
combination of value and error occurs. -/
theorem getTargetOutputs_result_shape
    (resolve : Value → Except Err Label) (scope : Scope)
    (args : List Value) :
    (∃ xs, RunGetTargetOutputs resolve scope args = (Value.list xs, none)) ∨
    (∃ e, RunGetTargetOutputs resolve scope args =
      (Value.none_, some e)) := by
  match args with
  | [] => exact Or.inr ⟨⟨"Expected one argument.", ""⟩, rfl⟩
  | a :: b :: t => exact Or.inr ⟨⟨"Expected one argument.", ""⟩, rfl⟩
  | [a] =>
    cases hres : resolve a with
    | error e =>
      refine Or.inr ⟨e, ?_⟩
      simp only [RunGetTargetOutputs, hres]
    | ok label =>
      cases hcol : scope.GetItemCollector with
      | none =>
        refine Or.inr ⟨⟨"No targets defined in this context.", ""⟩, ?_⟩
        simp only [RunGetTargetOutputs, hres, hcol]
      | some collector =>
        cases hf : findTarget label collector with
        | error e =>
          refine Or.inr ⟨e, ?_⟩
          simp only [RunGetTargetOutputs, hres, hcol, hf]
        | ok o =>
          cases o with
          | none =>
            refine Or.inr ⟨⟨"Target not found in this context.",
              label.GetUserVisibleName false ++
                "\nwas not found. get_target_outputs() can only be used for targets\npreviously defined in the current file."⟩, ?_⟩
            simp only [RunGetTargetOutputs, hres, hcol, hf]
          | some t =>
            by_cases hsup : t.output_type = OutputType.action ∨
                t.output_type = OutputType.copyFiles ∨
                t.output_type = OutputType.actionForeach ∨
                t.output_type = OutputType.generatedFile
            · exact Or.inl
                ⟨(t.GetOutputsAsSourceFiles scope.outDir).map
                  (fun f => Value.string f.value),
                run_success resolve scope a label collector t hres hcol hf
                  hsup⟩
            · refine Or.inr
                ⟨⟨"Target is not an action, action_foreach, generated_file, or copy.",
                  "Only these target types are supported by get_target_outputs."⟩,
                ?_⟩
              simp only [RunGetTargetOutputs, hres, hcol, hf]
              rw [if_neg hsup]

end GN
